import Mathlib

/-!
Shallow embedding of
`amulet_map_editor/opengl/mesh/selection/render_selection_group_editable.py`
(class `RenderSelectionGroupEditable`): the selection-group editor state, its
operations and the ray-picking loop.

The geometry collaborators `RenderSelection` and `RenderSelectionEditable`
are not part of the repository sources; only the interface the specification
documents is modelled (corner points, lock/unlock, set_active_point, and
`intersects_vector` as an abstract per-box hit function supplied to
`closest_intersection`).

Operations that can raise in Python (out-of-range list indexing) return
`Except GroupState GroupState`: `Except.error e` means the call raised, with
`e` the object state at the moment of the raise (Python mutations performed
before the raise are kept in `e`).
-/

/-- Integer voxel coordinates (the `numpy` int arrays of the source). -/
abbrev Point : Type := ℤ × ℤ × ℤ

/-- Modelled from the spec: the opaque committed-box collaborator
`RenderSelection` exposes two mutable corner points. -/
structure RenderSelection where
  point1 : Point
  point2 : Point
deriving DecidableEq, Repr

/-- Modelled from the spec: the opaque active-box collaborator
`RenderSelectionEditable` is a box with a dynamic/static tag. -/
structure RenderSelectionEditable where
  point1 : Point
  point2 : Point
  is_static : Bool
deriving DecidableEq, Repr

/-- Modelled from the spec: `is_dynamic` is the negation of `is_static`. -/
def RenderSelectionEditable.is_dynamic (b : RenderSelectionEditable) : Bool :=
  !b.is_static

/-- Modelled from the spec: `lock()` fixes the corners (makes the box static). -/
def RenderSelectionEditable.lock (b : RenderSelectionEditable) : RenderSelectionEditable :=
  { b with is_static := true }

/-- Modelled from the spec: `unlock(point)` converts the box to dynamic and
anchors the moving corner at `point`. -/
def RenderSelectionEditable.unlock (b : RenderSelectionEditable) (p : Point) :
    RenderSelectionEditable :=
  { b with point2 := p, is_static := false }

/-- Modelled from the spec: `set_active_point(position)` propagates the cursor
position as the moving corner, regardless of dynamic/static sub-state. -/
def RenderSelectionEditable.set_active_point (b : RenderSelectionEditable) (p : Point) :
    RenderSelectionEditable :=
  { b with point2 := p }

/-- Modelled from the spec: a freshly constructed `RenderSelectionEditable`
(`_new_editable_render_selection`, line 30-31) is dynamic; its corners are
not observed before being assigned, modelled as the origin. -/
def new_editable_render_selection : RenderSelectionEditable :=
  { point1 := (0, 0, 0), point2 := (0, 0, 0), is_static := false }

/-- Modelled from the spec: a freshly constructed `RenderSelection`
(`_new_render_selection` of the base class); its corners are not observed
before being assigned, modelled as the origin. -/
def new_render_selection : RenderSelection :=
  { point1 := (0, 0, 0), point2 := (0, 0, 0) }

/-- State of `RenderSelectionGroupEditable` (fields set in `__init__`,
lines 17-24, plus the committed box list `_boxes` of the base class). -/
structure GroupState where
  editable : Bool
  active_box : Option RenderSelectionEditable
  active_box_index : Option Nat
  last_active_box_index : Option Nat
  hover_box_index : Option Nat
  cursor_position : Point
  boxes : List RenderSelection
deriving DecidableEq, Repr

/-- `__init__` (lines 17-24): editable, no active box, all indices none,
cursor at the origin, no committed boxes. -/
def initial_state : GroupState :=
  { editable := true
    active_box := none
    active_box_index := none
    last_active_box_index := none
    hover_box_index := none
    cursor_position := (0, 0, 0)
    boxes := [] }

/-- `_create_active_box_from_cursor` (lines 33-38): new dynamic active box with
both corners at the cursor; `last_active_box_index` takes the old
`active_box_index`, which is then cleared. -/
def create_active_box_from_cursor (s : GroupState) : GroupState :=
  { s with
    active_box := some { point1 := s.cursor_position, point2 := s.cursor_position,
                         is_static := false }
    last_active_box_index := s.active_box_index
    active_box_index := none }

/-- `_create_active_box` (lines 40-51): new active box; `last_active_box_index`
takes the old `active_box_index`; if no index, corners come from the cursor
(dynamic); otherwise corners are copied from the committed box at the index and
the box is locked.  Reading `self._boxes[self._active_box_index]` out of range
raises `IndexError`; lines 41-42 have already run at that point. -/
def create_active_box (s : GroupState) : Except GroupState GroupState :=
  let s1 := { s with active_box := some new_editable_render_selection
                     last_active_box_index := s.active_box_index }
  match s.active_box_index with
  | none =>
    Except.ok { s1 with
      active_box := some { point1 := s.cursor_position, point2 := s.cursor_position,
                           is_static := false }
      active_box_index := none }
  | some i =>
    match s.boxes[i]? with
    | none => Except.error s1
    | some b =>
      Except.ok { s1 with
        active_box := some { point1 := b.point1, point2 := b.point2, is_static := true } }

/-- `editable` setter (lines 59-65): store the flag; when turning on with an
active index, rebuild the active box from the committed entry; otherwise
discard the active box. -/
def set_editable (s : GroupState) (e : Bool) : Except GroupState GroupState :=
  let s1 := { s with editable := e }
  if e && s1.active_box_index.isSome then
    create_active_box s1
  else
    Except.ok { s1 with active_box := none }

/-- `deselect_all` (lines 67-72): pop (and unload) every committed box, clear
the active box and both active indices.  `_hover_box_index` is not touched. -/
def deselect_all (s : GroupState) : GroupState :=
  { s with boxes := []
           active_box := none
           active_box_index := none
           last_active_box_index := none }

/-- `deselect_active` (lines 74-88): with an active index, pop that committed
box (`IndexError` when out of range); when boxes remain, decrement the index if
it was at least 1 and rebuild the active box from the committed entry; when no
boxes remain, clear the active box and both indices.  Without an active index,
restore `active_box_index` from `last_active_box_index` when the active box is
dynamic and a last index exists; otherwise do nothing. -/
def deselect_active (s : GroupState) : Except GroupState GroupState :=
  match s.active_box_index with
  | some i =>
    match s.boxes[i]? with
    | none => Except.error s
    | some _ =>
      let s1 := { s with boxes := s.boxes.eraseIdx i }
      if s1.boxes.isEmpty then
        Except.ok { s1 with active_box := none
                            active_box_index := none
                            last_active_box_index := none }
      else
        create_active_box
          { s1 with active_box_index := some (if 1 ≤ i then i - 1 else i) }
  | none =>
    match s.active_box with
    | some a =>
      if a.is_dynamic && s.last_active_box_index.isSome then
        Except.ok { s with active_box_index := s.last_active_box_index }
      else
        Except.ok s
    | none => Except.ok s

/-- `update_cursor_position` (lines 90-94): store cursor and hover index; when
an active box exists, propagate the cursor as its active point. -/
def update_cursor_position (s : GroupState) (position : Point)
    (box_index : Option Nat) : GroupState :=
  let s1 := { s with cursor_position := position, hover_box_index := box_index }
  match s1.active_box with
  | some a => { s1 with active_box := some (a.set_active_point position) }
  | none => s1

/-- `_box_select_disable` (lines 101-109): lock the active box; with no active
index, append a new committed box at the end and point the index at it;
otherwise target the committed box at the index (`IndexError` when out of
range); either way copy the active box corners into the committed box. -/
def box_select_disable_impl (s : GroupState) : Except GroupState GroupState :=
  match s.active_box with
  | none => Except.error s
  | some a =>
    let a1 := a.lock
    let s1 := { s with active_box := some a1 }
    match s1.active_box_index with
    | none =>
      Except.ok { s1 with
        active_box_index := some s1.boxes.length
        boxes := s1.boxes ++ [{ point1 := a1.point1, point2 := a1.point2 }] }
    | some i =>
      match s1.boxes[i]? with
      | none => Except.error s1
      | some _ =>
        Except.ok { s1 with
          boxes := s1.boxes.set i { point1 := a1.point1, point2 := a1.point2 } }

/-- `box_select_disable` (lines 96-99): commit only when an active box exists
and is dynamic; otherwise do nothing. -/
def box_select_disable (s : GroupState) : Except GroupState GroupState :=
  match s.active_box with
  | some a => if a.is_dynamic then box_select_disable_impl s else Except.ok s
  | none => Except.ok s

/-- `box_select_toggle` (lines 111-129): the central toggle.  Returns the new
state paired with the optional returned cursor position (Python returns a
value only in the unlock branch, `None` implicitly elsewhere). -/
def box_select_toggle (s : GroupState) (add_modifier : Bool) :
    Except GroupState (GroupState × Option Point) :=
  match s.active_box with
  | none => Except.ok (create_active_box_from_cursor s, none)
  | some a =>
    if a.is_static then
      if s.hover_box_index = s.active_box_index then
        Except.ok
          ({ s with active_box := some (a.unlock s.cursor_position)
                    last_active_box_index := s.active_box_index },
           some s.cursor_position)
      else
        match s.hover_box_index with
        | some h =>
          match create_active_box { s with active_box_index := some h } with
          | Except.ok s1 => Except.ok (s1, none)
          | Except.error e => Except.error e
        | none =>
          let s1 := if add_modifier then s else deselect_all s
          Except.ok (create_active_box_from_cursor s1, none)
    else
      match box_select_disable_impl s with
      | Except.ok s1 => Except.ok (s1, none)
      | Except.error e => Except.error e

/-- Truth of `self._active_box.is_static` guarded by existence (false when no
active box, as in the disjunction of line 149). -/
def active_is_static (s : GroupState) : Bool :=
  match s.active_box with
  | some a => a.is_static
  | none => false

/-- Truth of `self._active_box.is_dynamic` guarded by existence. -/
def active_is_dynamic (s : GroupState) : Bool :=
  match s.active_box with
  | some a => a.is_dynamic
  | none => false

/-- Eligibility test of line 149: `not self.editable or self._active_box is
None or self._active_box.is_static or index != self._active_box_index`. -/
def cast_eligible (s : GroupState) (index : Nat) : Bool :=
  !s.editable || s.active_box.isNone || active_is_static s ||
    decide (s.active_box_index ≠ some index)

/-- Loop of `closest_intersection` (lines 145-155): enumerate the committed
boxes keeping a running minimum, starting from the sentinel `999999999`; a box
is consulted only when eligible, and replaces the running best only on a
strictly smaller hit distance.  `hit` abstracts
`box.intersects_vector(origin, vector)` at the fixed ray. -/
def closestIntersectionAux (hit : RenderSelection → Option ℚ) (elig : Nat → Bool) :
    List RenderSelection → Nat → ℚ → Option Nat → Option RenderSelection →
    Option Nat × Option RenderSelection
  | [], _, _, index_return, box_return => (index_return, box_return)
  | box :: rest, index, multiplier, index_return, box_return =>
    if elig index then
      match hit box with
      | some mult =>
        if mult < multiplier then
          closestIntersectionAux hit elig rest (index + 1) mult (some index) (some box)
        else
          closestIntersectionAux hit elig rest (index + 1) multiplier index_return box_return
      | none =>
        closestIntersectionAux hit elig rest (index + 1) multiplier index_return box_return
    else
      closestIntersectionAux hit elig rest (index + 1) multiplier index_return box_return

/-- `closest_intersection` (lines 138-155). -/
def closest_intersection (s : GroupState) (hit : RenderSelection → Option ℚ) :
    Option Nat × Option RenderSelection :=
  closestIntersectionAux hit (cast_eligible s) s.boxes 0 999999999 none none

/-- The same running-minimum loop with no eligibility filter, over an
index-dependent hit assignment; used to state which boxes a given run of
`closest_intersection` actually casts against. -/
def closestAllAux (hitAt : Nat → RenderSelection → Option ℚ) :
    List RenderSelection → Nat → ℚ → Option Nat → Option RenderSelection →
    Option Nat × Option RenderSelection
  | [], _, _, index_return, box_return => (index_return, box_return)
  | box :: rest, index, multiplier, index_return, box_return =>
    match hitAt index box with
    | some mult =>
      if mult < multiplier then
        closestAllAux hitAt rest (index + 1) mult (some index) (some box)
      else
        closestAllAux hitAt rest (index + 1) multiplier index_return box_return
    | none =>
      closestAllAux hitAt rest (index + 1) multiplier index_return box_return

/-- Running-minimum cast over every committed box of a list. -/
def closestAll (l : List RenderSelection) (hitAt : Nat → RenderSelection → Option ℚ) :
    Option Nat × Option RenderSelection :=
  closestAllAux hitAt l 0 999999999 none none

/-- The skip condition the code actually implements (negation of line 149):
editable, an active box exists, it is dynamic, and the loop index is the
active index. -/
def code_skip (s : GroupState) (index : Nat) : Bool :=
  s.editable && s.active_box.isSome && active_is_dynamic s &&
    decide (s.active_box_index = some index)

/-- The skip condition as the specification words it: editable, an active box
exists, it is static, and the loop index is the active index. -/
def claim_skip (s : GroupState) (index : Nat) : Bool :=
  s.editable && s.active_box.isSome && active_is_static s &&
    decide (s.active_box_index = some index)

/-- Bound check for an optional index against a length: `none` passes, `some i`
passes when `i < n`. -/
def opt_lt (o : Option Nat) (n : Nat) : Bool :=
  match o with
  | some i => decide (i < n)
  | none => true

/-- The stated index invariant: `active_box_index` and `last_active_box_index`
are `none` or below the number of committed boxes. -/
def idx_inv (s : GroupState) : Bool :=
  opt_lt s.active_box_index s.boxes.length &&
    opt_lt s.last_active_box_index s.boxes.length

/-- Hover-index validity: `hover_box_index` is `none` or below the number of
committed boxes. -/
def hover_inv (s : GroupState) : Bool :=
  opt_lt s.hover_box_index s.boxes.length

/-- First selected candidate of the picking loop, computed head-first: at each
box consult `hit`, and on an eligible hit strictly below the running threshold
adopt it, letting later boxes win only with a strictly smaller distance.  This
is the declarative companion of `closestIntersectionAux`. -/
def bestHit (hit : RenderSelection → Option ℚ) (elig : Nat → Bool) :
    List RenderSelection → Nat → ℚ → Option (Nat × RenderSelection × ℚ)
  | [], _, _ => none
  | box :: rest, index, multiplier =>
    match hit box with
    | some mult =>
      if elig index && decide (mult < multiplier) then
        match bestHit hit elig rest (index + 1) mult with
        | none => some (index, box, mult)
        | some r => some r
      else
        bestHit hit elig rest (index + 1) multiplier
    | none => bestHit hit elig rest (index + 1) multiplier

/-- A committed box used by the concrete runs below. -/
def run_box : RenderSelection :=
  { point1 := (0, 0, 0), point2 := (0, 0, 0) }

/-- State after one `box_select_toggle` from `initial_state`: a dynamic active
box anchored at the cursor, nothing committed. -/
def run_state_1 : GroupState :=
  { editable := true
    active_box := some { point1 := (0, 0, 0), point2 := (0, 0, 0), is_static := false }
    active_box_index := none
    last_active_box_index := none
    hover_box_index := none
    cursor_position := (0, 0, 0)
    boxes := [] }

/-- State after a second `box_select_toggle`: the box is committed at index 0
and the active box is locked. -/
def run_state_2 : GroupState :=
  { editable := true
    active_box := some { point1 := (0, 0, 0), point2 := (0, 0, 0), is_static := true }
    active_box_index := some 0
    last_active_box_index := none
    hover_box_index := none
    cursor_position := (0, 0, 0)
    boxes := [run_box] }

/-- State after a third `box_select_toggle` with the add modifier: a fresh
dynamic active box, the committed box kept. -/
def run_state_3 : GroupState :=
  { editable := true
    active_box := some { point1 := (0, 0, 0), point2 := (0, 0, 0), is_static := false }
    active_box_index := none
    last_active_box_index := some 0
    hover_box_index := none
    cursor_position := (0, 0, 0)
    boxes := [run_box] }

/-- State after a fourth `box_select_toggle`: two committed boxes, the second
active and locked. -/
def run_state_4 : GroupState :=
  { editable := true
    active_box := some { point1 := (0, 0, 0), point2 := (0, 0, 0), is_static := true }
    active_box_index := some 1
    last_active_box_index := some 0
    hover_box_index := none
    cursor_position := (0, 0, 0)
    boxes := [run_box, run_box] }

/-- State after `update_cursor_position` reporting a hover over box 1 (a legal
hover: two boxes are committed). -/
def run_state_5 : GroupState :=
  { run_state_4 with hover_box_index := some 1 }

/-- State after `deselect_active`: box 1 removed, box 0 reactivated — the
hover index still reads 1 although only one box remains. -/
def run_state_6 : GroupState :=
  { editable := true
    active_box := some { point1 := (0, 0, 0), point2 := (0, 0, 0), is_static := true }
    active_box_index := some 0
    last_active_box_index := some 0
    hover_box_index := some 1
    cursor_position := (0, 0, 0)
    boxes := [run_box] }

/-- Object state at the moment the next `box_select_toggle` raises
`IndexError`: line 122 has already pointed `active_box_index` at the vanished
slot 1 and lines 41-42 have replaced the active box. -/
def run_error_state : GroupState :=
  { editable := true
    active_box := some new_editable_render_selection
    active_box_index := some 1
    last_active_box_index := some 1
    hover_box_index := some 1
    cursor_position := (0, 0, 0)
    boxes := [run_box] }

/-- `run_state_2` with the cursor hovering its own active box (resume-resize
configuration). -/
def run_state_2h : GroupState :=
  { run_state_2 with hover_box_index := some 0 }

/-- A state whose active box is static, committed at index 0, with one
committed box: configuration the spec says `closest_intersection` skips. -/
def state_static_active : GroupState :=
  { editable := true
    active_box := some { point1 := (0, 0, 0), point2 := (1, 1, 1), is_static := true }
    active_box_index := some 0
    last_active_box_index := none
    hover_box_index := none
    cursor_position := (0, 0, 0)
    boxes := [run_box] }

/-- The same state with a dynamic active box. -/
def state_dynamic_active : GroupState :=
  { state_static_active with
    active_box := some { point1 := (0, 0, 0), point2 := (1, 1, 1), is_static := false } }

/-- A state with one committed box and no active box (every box eligible). -/
def state_one_box : GroupState :=
  { initial_state with boxes := [run_box] }

/-- Hit function reporting distance 5 for every box. -/
def const_hit : RenderSelection → Option ℚ := fun _ => some 5

/-- Hit function reporting the sentinel distance 999999999 for every box. -/
def sentinel_hit : RenderSelection → Option ℚ := fun _ => some 999999999

/-- Hit function reporting the negative distance -5 for every box. -/
def negative_hit : RenderSelection → Option ℚ := fun _ => some (-5)

/-! ## Theorems -/

/-- C8 (amended): `deselect_all` empties the committed sequence, clears the
active box, and resets `active_box_index` and `last_active_box_index` to none;
the hover index, editable flag and cursor are left unchanged. -/
theorem C8_deselect_all_amended (s : GroupState) :
    (deselect_all s).boxes = [] ∧ (deselect_all s).active_box = none ∧
    (deselect_all s).active_box_index = none ∧
    (deselect_all s).last_active_box_index = none ∧
    (deselect_all s).hover_box_index = s.hover_box_index ∧
    (deselect_all s).editable = s.editable ∧
    (deselect_all s).cursor_position = s.cursor_position :=
  ⟨rfl, rfl, rfl, rfl, rfl, rfl, rfl⟩

/-- C8 (counterexample): `deselect_all` does not reset the hover index to
none — on a state hovering box 0 the hover index survives the call. -/
theorem C8_deselect_all_counterexample :
    run_state_2h.hover_box_index = some 0 ∧
    ¬ (deselect_all run_state_2h).hover_box_index = none := by
  decide

/-- C10: setting `editable` to true while `active_box_index` is none discards
any active box and touches nothing else: the committed sequence, both
remaining indices, the hover index and the cursor are unchanged. -/
theorem C10_enable_without_index (s : GroupState) (h : s.active_box_index = none) :
    set_editable s true = Except.ok { s with editable := true, active_box := none } := by
  simp [set_editable, h]

/-- C10 (witness): instantiation at `run_state_1`. -/
theorem C10_enable_without_index_witness :
    set_editable run_state_1 true =
      Except.ok { run_state_1 with editable := true, active_box := none } :=
  C10_enable_without_index run_state_1 rfl

/-- C6: from a state whose `active_box_index` points at a committed box,
setting editable to false and then to true leaves the committed sequence
unchanged both times, and rebuilds an active box that is static with the
corner points of the committed box at that index. -/
theorem C6_editable_round_trip (s : GroupState) (i : Nat) (b : RenderSelection)
    (h1 : s.active_box_index = some i) (h2 : s.boxes[i]? = some b) :
    set_editable s false = Except.ok { s with editable := false, active_box := none } ∧
    { s with editable := false, active_box := none }.boxes = s.boxes ∧
    set_editable { s with editable := false, active_box := none } true =
      Except.ok { s with editable := true
                         active_box := some { point1 := b.point1, point2 := b.point2,
                                              is_static := true }
                         last_active_box_index := some i } ∧
    { s with editable := true
             active_box := some { point1 := b.point1, point2 := b.point2,
                                  is_static := true }
             last_active_box_index := some i }.boxes = s.boxes := by
  refine ⟨by simp [set_editable], rfl, ?_, rfl⟩
  simp [set_editable, create_active_box, h1, h2]

/-- C6 (witness): instantiation at `run_state_2`, whose index 0 points at the
committed box `run_box`. -/
theorem C6_editable_round_trip_witness :
    set_editable run_state_2 false =
      Except.ok { run_state_2 with editable := false, active_box := none } ∧
    { run_state_2 with editable := false, active_box := none }.boxes = run_state_2.boxes ∧
    set_editable { run_state_2 with editable := false, active_box := none } true =
      Except.ok { run_state_2 with
                    editable := true
                    active_box := some { point1 := run_box.point1, point2 := run_box.point2,
                                         is_static := true }
                    last_active_box_index := some 0 } ∧
    { run_state_2 with
        editable := true
        active_box := some { point1 := run_box.point1, point2 := run_box.point2,
                             is_static := true }
        last_active_box_index := some 0 }.boxes = run_state_2.boxes :=
  C6_editable_round_trip run_state_2 0 run_box rfl rfl

/-- C3 (amended): from a state with no active box, an empty committed sequence
and no hover index, the first `box_select_toggle` creates a dynamic active box
with both corners at the cursor and commits nothing; the second
`box_select_toggle` commits that box (sequence of length 1, corners equal to
the cursor position) at index 0 and locks the active box in place — the active
box stays, now static; no new dynamic box is created by the second toggle. -/
theorem C3_two_toggles_amended (s : GroupState) (h1 : s.active_box = none)
    (h2 : s.boxes = []) (_h3 : s.hover_box_index = none) :
    box_select_toggle s false =
      Except.ok ({ s with
                     active_box := some { point1 := s.cursor_position,
                                          point2 := s.cursor_position,
                                          is_static := false }
                     last_active_box_index := s.active_box_index
                     active_box_index := none }, none) ∧
    box_select_toggle
        { s with
            active_box := some { point1 := s.cursor_position,
                                 point2 := s.cursor_position,
                                 is_static := false }
            last_active_box_index := s.active_box_index
            active_box_index := none } false =
      Except.ok ({ s with
                     active_box := some { point1 := s.cursor_position,
                                          point2 := s.cursor_position,
                                          is_static := true }
                     last_active_box_index := s.active_box_index
                     active_box_index := some 0
                     boxes := [{ point1 := s.cursor_position,
                                 point2 := s.cursor_position }] }, none) := by
  constructor
  · simp [box_select_toggle, h1, create_active_box_from_cursor]
  · simp [box_select_toggle, box_select_disable_impl, RenderSelectionEditable.lock, h2]

/-- C3 (witness): instantiation at `initial_state`. -/
theorem C3_two_toggles_amended_witness :
    box_select_toggle initial_state false = Except.ok (run_state_1, none) ∧
    box_select_toggle run_state_1 false = Except.ok (run_state_2, none) :=
  C3_two_toggles_amended initial_state rfl rfl rfl

/-- C3 (counterexample): after the second of two `box_select_toggle` calls from
the empty initial state, the active box is static, not a freshly created
dynamic box as the claim states. -/
theorem C3_two_toggles_counterexample :
    box_select_toggle initial_state false = Except.ok (run_state_1, none) ∧
    box_select_toggle run_state_1 false = Except.ok (run_state_2, none) ∧
    active_is_dynamic run_state_2 = false ∧ active_is_static run_state_2 = true :=
  ⟨rfl, rfl, rfl, rfl⟩

/-- C7: a `box_select_toggle` call that returns normally yields the cursor
position exactly when an active box exists, is static, and the hover index
equals `active_box_index`; in every other case it yields none. -/
theorem C7_toggle_return_value (s : GroupState) (am : Bool) (t : GroupState)
    (r : Option Point) (h : box_select_toggle s am = Except.ok (t, r)) :
    r = if active_is_static s && decide (s.hover_box_index = s.active_box_index)
        then some s.cursor_position else none := by
  unfold box_select_toggle at h
  cases ha : s.active_box with
  | none =>
    rw [ha] at h
    simp only [Except.ok.injEq, Prod.mk.injEq] at h
    simp [active_is_static, ha, ← h.2]
  | some a =>
    rw [ha] at h
    dsimp only at h
    by_cases hs : a.is_static = true
    · rw [if_pos hs] at h
      by_cases hh : s.hover_box_index = s.active_box_index
      · rw [if_pos hh] at h
        simp only [Except.ok.injEq, Prod.mk.injEq] at h
        simp [active_is_static, ha, hs, hh, ← h.2]
      · rw [if_neg hh] at h
        have hcond : (active_is_static s && decide (s.hover_box_index = s.active_box_index))
            = false := by
          simp [hh]
        rw [hcond, if_neg (by simp)]
        cases hhov : s.hover_box_index with
        | some hi =>
          rw [hhov] at h
          dsimp only at h
          split at h
          · simp only [Except.ok.injEq, Prod.mk.injEq] at h
            exact h.2.symm
          · exact absurd h (by simp)
        | none =>
          rw [hhov] at h
          simp only [Except.ok.injEq, Prod.mk.injEq] at h
          exact h.2.symm
    · rw [if_neg hs] at h
      have hcond : (active_is_static s && decide (s.hover_box_index = s.active_box_index))
          = false := by
        simp [active_is_static, ha, hs]
      rw [hcond, if_neg (by simp)]
      split at h
      · simp only [Except.ok.injEq, Prod.mk.injEq] at h
        exact h.2.symm
      · exact absurd h (by simp)

/-- C7 (witness): at `run_state_2h` (static active box, hover equal to the
active index) the toggle returns the cursor position. -/
theorem C7_toggle_return_value_witness :
    some ((0 : ℤ), (0 : ℤ), (0 : ℤ)) =
      if active_is_static run_state_2h &&
          decide (run_state_2h.hover_box_index = run_state_2h.active_box_index)
      then some run_state_2h.cursor_position else none :=
  C7_toggle_return_value run_state_2h false
    { run_state_2h with
        active_box := some { point1 := (0, 0, 0), point2 := (0, 0, 0), is_static := false }
        last_active_box_index := some 0 }
    (some ((0 : ℤ), (0 : ℤ), (0 : ℤ))) rfl

/-- C5: `deselect_active` with `active_box_index = some i` pointing at a
committed box removes that box; if boxes remain, the index is decremented
exactly when it was at least 1 and the active box becomes a static copy of the
committed box at the adjusted index; if no boxes remain, the active box and
both indices are cleared to none. -/
theorem C5_deselect_active (s : GroupState) (i : Nat) (b : RenderSelection)
    (h1 : s.active_box_index = some i) (h2 : s.boxes[i]? = some b) :
    ∃ t, deselect_active s = Except.ok t ∧ t.boxes = s.boxes.eraseIdx i ∧
      ((s.boxes.eraseIdx i).isEmpty = true →
        t.active_box = none ∧ t.active_box_index = none ∧
          t.last_active_box_index = none) ∧
      ((s.boxes.eraseIdx i).isEmpty = false →
        t.active_box_index = some (if 1 ≤ i then i - 1 else i) ∧
        ∃ c, (s.boxes.eraseIdx i)[if 1 ≤ i then i - 1 else i]? = some c ∧
          t.active_box = some { point1 := c.point1, point2 := c.point2,
                                is_static := true }) := by
  have hi : i < s.boxes.length := (List.getElem?_eq_some.mp h2).1
  unfold deselect_active
  rw [h1]
  dsimp only
  rw [h2]
  dsimp only
  cases hemp : (s.boxes.eraseIdx i).isEmpty with
  | true =>
    rw [if_pos rfl]
    exact ⟨_, rfl, rfl, fun _ => ⟨rfl, rfl, rfl⟩, fun hf => absurd hf (by simp)⟩
  | false =>
    rw [if_neg (by simp)]
    have hlen : (s.boxes.eraseIdx i).length = s.boxes.length - 1 := by
      rw [List.length_eraseIdx, if_pos hi]
    have hne : s.boxes.eraseIdx i ≠ [] := by
      intro hh
      rw [hh] at hemp
      exact absurd hemp (by simp)
    have hpos : 0 < (s.boxes.eraseIdx i).length := List.length_pos.mpr hne
    have hi2 : (if 1 ≤ i then i - 1 else i) < (s.boxes.eraseIdx i).length := by
      split <;> omega
    obtain ⟨c, hc⟩ : ∃ c, (s.boxes.eraseIdx i)[if 1 ≤ i then i - 1 else i]? = some c :=
      ⟨_, List.getElem?_eq_getElem hi2⟩
    unfold create_active_box
    dsimp only
    rw [hc]
    dsimp only
    exact ⟨_, rfl, rfl, fun hf => absurd hf (by simp), fun _ => ⟨rfl, c, rfl, rfl⟩⟩

/-- C5 (witness): instantiation at `run_state_4` (two committed boxes, active
index 1): the box at index 1 is removed and index 0 becomes active. -/
theorem C5_deselect_active_witness :
    ∃ t, deselect_active run_state_4 = Except.ok t ∧
      t.boxes = run_state_4.boxes.eraseIdx 1 ∧
      ((run_state_4.boxes.eraseIdx 1).isEmpty = true →
        t.active_box = none ∧ t.active_box_index = none ∧
          t.last_active_box_index = none) ∧
      ((run_state_4.boxes.eraseIdx 1).isEmpty = false →
        t.active_box_index = some (if 1 ≤ 1 then 1 - 1 else 1) ∧
        ∃ c, (run_state_4.boxes.eraseIdx 1)[if 1 ≤ 1 then 1 - 1 else 1]? = some c ∧
          t.active_box = some { point1 := c.point1, point2 := c.point2,
                                is_static := true }) :=
  C5_deselect_active run_state_4 1 run_box rfl rfl

/-- Filtering by eligibility inside the loop equals masking the hit function
and casting against every box. -/
theorem closestIntersectionAux_eq_closestAllAux (hit : RenderSelection → Option ℚ)
    (elig : Nat → Bool) (l : List RenderSelection) :
    ∀ i m ir br, closestIntersectionAux hit elig l i m ir br =
      closestAllAux (fun j box => if elig j then hit box else none) l i m ir br := by
  induction l with
  | nil => intro i m ir br; rfl
  | cons box rest ih =>
    intro i m ir br
    by_cases he : elig i
    · cases hb : hit box with
      | none => simp [closestIntersectionAux, closestAllAux, he, hb, ih]
      | some d =>
        by_cases hd : d < m
        · simp [closestIntersectionAux, closestAllAux, he, hb, hd, ih]
        · simp [closestIntersectionAux, closestAllAux, he, hb, hd, ih]
    · simp [closestIntersectionAux, closestAllAux, he, ih]

/-- The eligibility test of line 149 is the negation of the implemented skip
condition (editable, active box present, dynamic, index equal). -/
theorem cast_eligible_eq_not_code_skip (s : GroupState) (i : Nat) :
    cast_eligible s i = !code_skip s i := by
  unfold cast_eligible code_skip active_is_static active_is_dynamic
  cases ha : s.active_box with
  | none => simp [ha]
  | some a =>
    cases he : s.editable <;>
      cases hs : a.is_static <;>
        by_cases hi : s.active_box_index = some i <;>
          simp [ha, hi, RenderSelectionEditable.is_dynamic, hs]

/-- C1 (amended): `closest_intersection` ray-casts against every committed
box, skipping the box at `active_box_index` exactly when the editor is
editable, an active box exists, that active box is dynamic, and the loop index
equals `active_box_index`; in particular when the active box is static, or
absent, or the editor is non-editable, every committed box (including the one
at `active_box_index`) is included in the cast. -/
theorem C1_cast_skip_amended (s : GroupState) (hit : RenderSelection → Option ℚ) :
    closest_intersection s hit =
      closestAll s.boxes (fun i box => if code_skip s i then none else hit box) ∧
    (s.editable = false ∨ active_is_dynamic s = false →
      closest_intersection s hit = closestAll s.boxes (fun _ box => hit box)) := by
  have hmask : closest_intersection s hit =
      closestAll s.boxes (fun i box => if code_skip s i then none else hit box) := by
    unfold closest_intersection closestAll
    rw [closestIntersectionAux_eq_closestAllAux]
    have : (fun j box => if cast_eligible s j then hit box else none) =
        (fun i box => if code_skip s i then none else hit box) := by
      funext j box
      rw [cast_eligible_eq_not_code_skip]
      cases code_skip s j <;> simp
    rw [this]
  refine ⟨hmask, fun h => ?_⟩
  rw [hmask]
  have : (fun i box => if code_skip s i then none else hit box) =
      (fun _ box => hit box) := by
    funext i box
    have hskip : code_skip s i = false := by
      unfold code_skip
      rcases h with h | h <;> simp [h]
    rw [hskip]
    simp
  rw [this]

/-- C1 (witness): at `initial_state` (no active box, hence no skipping) the
cast includes every box. -/
theorem C1_cast_skip_amended_witness :
    closest_intersection initial_state const_hit =
      closestAll initial_state.boxes (fun _ box => const_hit box) :=
  (C1_cast_skip_amended initial_state const_hit).2 (Or.inr rfl)

/-- C1 (counterexample): the claimed skip condition (skip when the active box
is static; include when dynamic) disagrees with the code on concrete states:
with a static active box at index 0 the code still casts against box 0, and
with a dynamic active box at index 0 the code skips box 0. -/
theorem C1_cast_skip_counterexample :
    closest_intersection state_static_active const_hit ≠
      closestAll state_static_active.boxes
        (fun i box => if claim_skip state_static_active i then none else const_hit box) ∧
    closest_intersection state_dynamic_active const_hit ≠
      closestAll state_dynamic_active.boxes
        (fun i box => if claim_skip state_dynamic_active i then none else const_hit box) ∧
    active_is_static state_static_active = true ∧
    active_is_dynamic state_dynamic_active = true ∧
    state_static_active.editable = true ∧ state_dynamic_active.editable = true ∧
    state_static_active.active_box_index = some 0 ∧
    state_dynamic_active.active_box_index = some 0 := by
  refine ⟨by decide, by decide, rfl, rfl, rfl, rfl, rfl, rfl⟩

/-- The accumulator loop is determined by `bestHit`: the loop returns the pair
selected by `bestHit`, or the incoming accumulators when `bestHit` finds
nothing. -/
theorem closestIntersectionAux_eq_bestHit (hit : RenderSelection → Option ℚ)
    (elig : Nat → Bool) (l : List RenderSelection) :
    ∀ i m ir br, closestIntersectionAux hit elig l i m ir br =
      match bestHit hit elig l i m with
      | none => (ir, br)
      | some (j, box, _) => (some j, some box) := by
  induction l with
  | nil => intro i m ir br; rfl
  | cons box rest ih =>
    intro i m ir br
    unfold closestIntersectionAux bestHit
    cases hb : hit box with
    | none =>
      by_cases he : elig i <;> simp [he, ih]
    | some d =>
      by_cases he : elig i
      · by_cases hd : d < m
        · have hdec : decide (d < m) = true := decide_eq_true hd
          have hnle : ¬ m ≤ d := not_le.mpr hd
          simp only [he, if_true, hdec, Bool.and_self]
          rw [ih]
          cases hrec : bestHit hit elig rest (i + 1) d <;> simp [hd, hnle]
        · simp [he, hd, ih]
      · simp [he, ih]

/-- When `bestHit` finds nothing, no box of the list is eligible with a hit
distance below the threshold. -/
theorem bestHit_none_spec (hit : RenderSelection → Option ℚ) (elig : Nat → Bool)
    (l : List RenderSelection) :
    ∀ i m, bestHit hit elig l i m = none →
      ∀ k c, l[k]? = some c → elig (i + k) = true →
        ∀ e, hit c = some e → ¬ e < m := by
  induction l with
  | nil =>
    intro i m _ k c hk
    simp at hk
  | cons box rest ih =>
    intro i m hnone k c hk hel e he hlt
    unfold bestHit at hnone
    cases hb : hit box with
    | none =>
      rw [hb] at hnone
      dsimp only at hnone
      cases k with
      | zero =>
        simp only [List.getElem?_cons_zero, Option.some.injEq] at hk
        rw [← hk] at he
        rw [hb] at he
        exact Option.noConfusion he
      | succ k2 =>
        simp only [List.getElem?_cons_succ] at hk
        have harith : i + (k2 + 1) = (i + 1) + k2 := by omega
        rw [harith] at hel
        exact ih (i + 1) m hnone k2 c hk hel e he hlt
    | some d =>
      rw [hb] at hnone
      dsimp only at hnone
      by_cases hcond : (elig i && decide (d < m)) = true
      · rw [if_pos hcond] at hnone
        cases hrec : bestHit hit elig rest (i + 1) d <;>
          rw [hrec] at hnone <;> exact Option.noConfusion hnone
      · rw [if_neg hcond] at hnone
        cases k with
        | zero =>
          simp only [List.getElem?_cons_zero, Option.some.injEq] at hk
          rw [← hk] at he
          rw [hb] at he
          have hde : d = e := Option.some.inj he
          have heli : elig i = true := by simpa using hel
          rw [heli, hde] at hcond
          simp [hlt] at hcond
        | succ k2 =>
          simp only [List.getElem?_cons_succ] at hk
          have harith : i + (k2 + 1) = (i + 1) + k2 := by omega
          rw [harith] at hel
          exact ih (i + 1) m hnone k2 c hk hel e he hlt

/-- When `bestHit` selects `(j, box, d)`: `j` lies in the list's index range,
`box` is the list entry at `j`, it is eligible, its hit distance is `d`, `d`
is below the threshold, and `d` is minimal among all eligible hit distances
below the threshold — strictly smaller than the distance of every eligible
box at an earlier index (first-encountered tie-breaking). -/
theorem bestHit_some_spec (hit : RenderSelection → Option ℚ) (elig : Nat → Bool)
    (l : List RenderSelection) :
    ∀ i m j box d, bestHit hit elig l i m = some (j, box, d) →
      i ≤ j ∧ l[j - i]? = some box ∧ elig j = true ∧ hit box = some d ∧ d < m ∧
      ∀ k c, l[k]? = some c → elig (i + k) = true →
        ∀ e, hit c = some e → e < m → d ≤ e ∧ (i + k < j → d < e) := by
  induction l with
  | nil =>
    intro i m j box d h
    exact Option.noConfusion h
  | cons bx rest ih =>
    intro i m j box d h
    unfold bestHit at h
    cases hb : hit bx with
    | none =>
      rw [hb] at h
      dsimp only at h
      obtain ⟨hij, hget, hel, hhit, hdm, hmin⟩ := ih (i + 1) m j box d h
      refine ⟨by omega, ?_, hel, hhit, hdm, ?_⟩
      · have hji : j - i = (j - (i + 1)) + 1 := by omega
        rw [hji, List.getElem?_cons_succ]
        exact hget
      · intro k c hk hel2 e he helt
        cases k with
        | zero =>
          simp only [List.getElem?_cons_zero, Option.some.injEq] at hk
          rw [← hk] at he
          rw [hb] at he
          exact Option.noConfusion he
        | succ k2 =>
          simp only [List.getElem?_cons_succ] at hk
          have harith : i + (k2 + 1) = (i + 1) + k2 := by omega
          rw [harith] at hel2
          have hres := hmin k2 c hk hel2 e he helt
          exact ⟨hres.1, fun hlt2 => hres.2 (by omega)⟩
    | some d0 =>
      rw [hb] at h
      dsimp only at h
      by_cases hcond : (elig i && decide (d0 < m)) = true
      · rw [if_pos hcond] at h
        have hboth : elig i = true ∧ decide (d0 < m) = true := by
          rw [Bool.and_eq_true] at hcond
          exact hcond
        have hel_i : elig i = true := hboth.1
        have hd0m : d0 < m := of_decide_eq_true hboth.2
        cases hrec : bestHit hit elig rest (i + 1) d0 with
        | none =>
          rw [hrec] at h
          dsimp only at h
          simp only [Option.some.injEq, Prod.mk.injEq] at h
          obtain ⟨h1, h2, h3⟩ := h
          subst h1
          subst h2
          subst h3
          refine ⟨le_refl i, by simp, hel_i, hb, hd0m, ?_⟩
          intro k c hk hel2 e he helt
          cases k with
          | zero =>
            simp only [List.getElem?_cons_zero, Option.some.injEq] at hk
            rw [← hk] at he
            rw [hb] at he
            have hde : d0 = e := Option.some.inj he
            exact ⟨le_of_eq hde, fun hh => absurd hh (by omega)⟩
          | succ k2 =>
            simp only [List.getElem?_cons_succ] at hk
            have harith : i + (k2 + 1) = (i + 1) + k2 := by omega
            rw [harith] at hel2
            have hnot := bestHit_none_spec hit elig rest (i + 1) d0 hrec k2 c hk hel2 e he
            exact ⟨le_of_not_lt hnot, fun hh => absurd hh (by omega)⟩
        | some r =>
          rw [hrec] at h
          dsimp only at h
          have hr : r = (j, box, d) := Option.some.inj h
          rw [hr] at hrec
          obtain ⟨hij, hget, hel, hhit, hdd0, hmin⟩ := ih (i + 1) d0 j box d hrec
          refine ⟨by omega, ?_, hel, hhit, lt_trans hdd0 hd0m, ?_⟩
          · have hji : j - i = (j - (i + 1)) + 1 := by omega
            rw [hji, List.getElem?_cons_succ]
            exact hget
          · intro k c hk hel2 e he helt
            cases k with
            | zero =>
              simp only [List.getElem?_cons_zero, Option.some.injEq] at hk
              rw [← hk] at he
              rw [hb] at he
              have hde : d0 = e := Option.some.inj he
              rw [← hde]
              exact ⟨le_of_lt hdd0, fun _ => hdd0⟩
            | succ k2 =>
              simp only [List.getElem?_cons_succ] at hk
              have harith : i + (k2 + 1) = (i + 1) + k2 := by omega
              rw [harith] at hel2
              by_cases hed0 : e < d0
              · have hres := hmin k2 c hk hel2 e he hed0
                exact ⟨hres.1, fun hlt2 => hres.2 (by omega)⟩
              · have hde : d < e := lt_of_lt_of_le hdd0 (le_of_not_lt hed0)
                exact ⟨le_of_lt hde, fun _ => hde⟩
      · rw [if_neg hcond] at h
        obtain ⟨hij, hget, hel, hhit, hdm, hmin⟩ := ih (i + 1) m j box d h
        refine ⟨by omega, ?_, hel, hhit, hdm, ?_⟩
        · have hji : j - i = (j - (i + 1)) + 1 := by omega
          rw [hji, List.getElem?_cons_succ]
          exact hget
        · intro k c hk hel2 e he helt
          cases k with
          | zero =>
            simp only [List.getElem?_cons_zero, Option.some.injEq] at hk
            rw [← hk] at he
            rw [hb] at he
            have hde : d0 = e := Option.some.inj he
            have heli : elig i = true := by simpa using hel2
            rw [heli, hde] at hcond
            simp [helt] at hcond
          | succ k2 =>
            simp only [List.getElem?_cons_succ] at hk
            have harith : i + (k2 + 1) = (i + 1) + k2 := by omega
            rw [harith] at hel2
            have hres := hmin k2 c hk hel2 e he helt
            exact ⟨hres.1, fun hlt2 => hres.2 (by omega)⟩

/-- C4 (amended): among the eligible committed boxes, `closest_intersection`
returns the index/box pair whose hit distance is minimal and strictly below
the sentinel 999999999 (not the minimum positive distance: no positivity is
required, and distances at or above the sentinel are ignored), breaking
distance ties in favor of the earliest index; it returns (none, none) exactly
when no eligible box reports a distance below the sentinel. -/
theorem C4_closest_intersection_amended (s : GroupState)
    (hit : RenderSelection → Option ℚ) :
    (∀ j box, closest_intersection s hit = (some j, some box) →
      s.boxes[j]? = some box ∧ cast_eligible s j = true ∧
      ∃ d, hit box = some d ∧ d < 999999999 ∧
        ∀ k c, s.boxes[k]? = some c → cast_eligible s k = true →
          ∀ e, hit c = some e → d ≤ e ∧ (k < j → d < e)) ∧
    (closest_intersection s hit = (none, none) ↔
      ∀ k c, s.boxes[k]? = some c → cast_eligible s k = true →
        ∀ e, hit c = some e → 999999999 ≤ e) ∧
    ((closest_intersection s hit).1 = none ↔ (closest_intersection s hit).2 = none) := by
  have hrep := closestIntersectionAux_eq_bestHit hit (cast_eligible s) s.boxes
  cases hbest : bestHit hit (cast_eligible s) s.boxes 0 999999999 with
  | none =>
    have hres : closest_intersection s hit = (none, none) := by
      unfold closest_intersection
      rw [hrep, hbest]
    have hnone := bestHit_none_spec hit (cast_eligible s) s.boxes 0 999999999 hbest
    refine ⟨?_, ?_, ?_⟩
    · intro j box hj
      rw [hres] at hj
      exact absurd hj (by simp)
    · constructor
      · intro _ k c hk hel e he
        have hz : (0 : Nat) + k = k := by omega
        exact le_of_not_lt (hnone k c hk (by rw [hz]; exact hel) e he)
      · intro _
        exact hres
    · rw [hres]
      simp
  | some r =>
    obtain ⟨j0, box0, d0⟩ := r
    have hres : closest_intersection s hit = (some j0, some box0) := by
      unfold closest_intersection
      rw [hrep, hbest]
    obtain ⟨_, hget, hel, hhit, hdm, hmin⟩ :=
      bestHit_some_spec hit (cast_eligible s) s.boxes 0 999999999 j0 box0 d0 hbest
    have hget0 : s.boxes[j0]? = some box0 := by simpa using hget
    refine ⟨?_, ?_, ?_⟩
    · intro j box hj
      rw [hres] at hj
      simp only [Prod.mk.injEq, Option.some.injEq] at hj
      obtain ⟨hj1, hj2⟩ := hj
      subst hj1
      subst hj2
      refine ⟨hget0, hel, d0, hhit, hdm, ?_⟩
      intro k c hk hel2 e he
      by_cases helt : e < 999999999
      · have hz : (0 : Nat) + k = k := by omega
        have hres2 := hmin k c hk (by rw [hz]; exact hel2) e he helt
        exact ⟨hres2.1, fun hkj => hres2.2 (by omega)⟩
      · have hde : d0 < e := lt_of_lt_of_le hdm (le_of_not_lt helt)
        exact ⟨le_of_lt hde, fun _ => hde⟩
    · constructor
      · intro hcontra
        rw [hres] at hcontra
        exact absurd hcontra (by simp)
      · intro hall
        exact absurd (hall j0 box0 hget0 hel d0 hhit) (not_le.mpr hdm)
    · rw [hres]
      simp

/-- C4 (witness): instantiation at a one-box state with a constant hit of 5;
the minimality part applies with the result pair discharged by evaluation. -/
theorem C4_closest_intersection_amended_witness :
    state_one_box.boxes[0]? = some run_box :=
  ((C4_closest_intersection_amended state_one_box const_hit).1 0 run_box (by decide)).1

/-- C4 (counterexample): the claim as stated fails on the code in two ways.
With a single eligible box hit at the positive distance 999999999, the minimum
positive distance exists yet the code returns (none, none) (the sentinel cap
drops it); and with the single box hit at the negative distance -5, the code
returns that box although its distance is not positive. -/
theorem C4_closest_intersection_counterexample :
    cast_eligible state_one_box 0 = true ∧
    state_one_box.boxes = [run_box] ∧
    sentinel_hit run_box = some 999999999 ∧
    (0 : ℚ) < 999999999 ∧
    closest_intersection state_one_box sentinel_hit = (none, none) ∧
    negative_hit run_box = some (-5) ∧
    (-5 : ℚ) < 0 ∧
    closest_intersection state_one_box negative_hit = (some 0, some run_box) := by
  refine ⟨rfl, rfl, rfl, by decide, by decide, rfl, by decide, by decide⟩

/-- Bound checks are monotone in the length. -/
theorem opt_lt_mono {o : Option Nat} {n n2 : Nat} (h : opt_lt o n = true)
    (hle : n ≤ n2) : opt_lt o n2 = true := by
  cases o with
  | none => rfl
  | some i =>
    simp only [opt_lt, decide_eq_true_eq] at h ⊢
    omega

/-- `_create_active_box` returns normally when the active index is in range,
leaving the committed sequence and the active index unchanged and recording
the active index into the last index. -/
theorem create_active_box_ok (s : GroupState)
    (h : opt_lt s.active_box_index s.boxes.length = true) :
    ∃ t, create_active_box s = Except.ok t ∧ t.boxes = s.boxes ∧
      t.active_box_index = s.active_box_index ∧
      t.last_active_box_index = s.active_box_index := by
  cases hi : s.active_box_index with
  | none =>
    unfold create_active_box
    rw [hi]
    exact ⟨_, rfl, rfl, rfl, rfl⟩
  | some i =>
    have hlt : i < s.boxes.length := by
      rw [hi] at h
      simpa [opt_lt] using h
    obtain ⟨b, hb⟩ : ∃ b, s.boxes[i]? = some b := ⟨_, List.getElem?_eq_getElem hlt⟩
    unfold create_active_box
    rw [hi]
    dsimp only
    rw [hb]
    exact ⟨_, rfl, rfl, rfl, rfl⟩

/-- `_box_select_disable` returns normally under the index invariant, and the
resulting state still satisfies it. -/
theorem box_select_disable_impl_inv (s : GroupState) (a : RenderSelectionEditable)
    (ha : s.active_box = some a) (h : idx_inv s = true) :
    ∃ t, box_select_disable_impl s = Except.ok t ∧ idx_inv t = true := by
  have hpair : opt_lt s.active_box_index s.boxes.length = true ∧
      opt_lt s.last_active_box_index s.boxes.length = true := by
    rw [idx_inv, Bool.and_eq_true] at h
    exact h
  unfold box_select_disable_impl
  rw [ha]
  dsimp only
  cases hi : s.active_box_index with
  | none =>
    refine ⟨_, rfl, ?_⟩
    rw [idx_inv]
    dsimp only
    have h1 : opt_lt (some s.boxes.length) (s.boxes.length + 1) = true := by
      simp [opt_lt]
    have h2 : opt_lt s.last_active_box_index (s.boxes.length + 1) = true :=
      opt_lt_mono hpair.2 (by omega)
    simp only [List.length_append, List.length_singleton, h1, h2, Bool.and_self]
  | some i =>
    have hlt : i < s.boxes.length := by
      have := hpair.1
      rw [hi] at this
      simpa [opt_lt] using this
    obtain ⟨b, hb⟩ : ∃ b, s.boxes[i]? = some b := ⟨_, List.getElem?_eq_getElem hlt⟩
    dsimp only
    rw [hb]
    dsimp only
    refine ⟨_, rfl, ?_⟩
    rw [idx_inv]
    dsimp only
    rw [List.length_set]
    rw [hpair.2]
    have h1 : opt_lt (some i) s.boxes.length = true := by
      simp [opt_lt, hlt]
    rw [h1]
    rfl

/-- C2 (amended): from any state satisfying the index invariant
(`active_box_index` and `last_active_box_index` none or below the sequence
length) together with hover validity in the pre-state (`hover_box_index` none
or below the sequence length), every operation returns normally and its result
satisfies the index invariant.  (The supply-time precondition on hover indices
alone does not suffice: the committed sequence can shrink after a hover index
was stored, see the counterexample.) -/
theorem C2_invariant_amended (s : GroupState) (e am : Bool) (p : Point)
    (hov : Option Nat) (hidx : idx_inv s = true) (hhov : hover_inv s = true) :
    (∃ t, set_editable s e = Except.ok t ∧ idx_inv t = true) ∧
    idx_inv (update_cursor_position s p hov) = true ∧
    (∃ t r, box_select_toggle s am = Except.ok (t, r) ∧ idx_inv t = true) ∧
    (∃ t, box_select_disable s = Except.ok t ∧ idx_inv t = true) ∧
    (∃ t, deselect_active s = Except.ok t ∧ idx_inv t = true) ∧
    idx_inv (deselect_all s) = true := by
  have hpair : opt_lt s.active_box_index s.boxes.length = true ∧
      opt_lt s.last_active_box_index s.boxes.length = true := by
    have hcopy := hidx
    rw [idx_inv, Bool.and_eq_true] at hcopy
    exact hcopy
  have hfc : idx_inv (create_active_box_from_cursor s) = true := by
    rw [idx_inv]
    dsimp only [create_active_box_from_cursor]
    rw [hpair.1]
    rfl
  have part1 : ∃ t, set_editable s e = Except.ok t ∧ idx_inv t = true := by
    unfold set_editable
    try dsimp only
    by_cases hcond : (e && s.active_box_index.isSome) = true
    · rw [if_pos hcond]
      obtain ⟨t, hok, hbx, hidxa, hlasta⟩ :=
        create_active_box_ok { s with editable := e } hpair.1
      refine ⟨t, hok, ?_⟩
      simp only [idx_inv, hbx, hidxa, hlasta]
      try dsimp only
      rw [hpair.1]
      rfl
    · rw [if_neg hcond]
      exact ⟨_, rfl, hidx⟩
  have part2 : idx_inv (update_cursor_position s p hov) = true := by
    unfold update_cursor_position
    try dsimp only
    cases hA : s.active_box <;> exact hidx
  have part3 : ∃ t r, box_select_toggle s am = Except.ok (t, r) ∧ idx_inv t = true := by
    unfold box_select_toggle
    cases hA : s.active_box with
    | none => exact ⟨_, none, rfl, hfc⟩
    | some a =>
      try dsimp only
      by_cases hs : a.is_static = true
      · rw [if_pos hs]
        by_cases hh : s.hover_box_index = s.active_box_index
        · rw [if_pos hh]
          refine ⟨_, _, rfl, ?_⟩
          rw [idx_inv]
          try dsimp only
          rw [hpair.1]
          rfl
        · rw [if_neg hh]
          cases hhv : s.hover_box_index with
          | some hidx0 =>
            have hlt : hidx0 < s.boxes.length := by
              have hcopy := hhov
              rw [hover_inv, hhv] at hcopy
              simpa [opt_lt] using hcopy
            have hopt : opt_lt (some hidx0) s.boxes.length = true := by
              simp [opt_lt, hlt]
            obtain ⟨t, hok, hbx, hidxa, hlasta⟩ :=
              create_active_box_ok
                { s with active_box := some a, active_box_index := some hidx0,
                         hover_box_index := some hidx0 } hopt
            try dsimp only
            rw [hok]
            refine ⟨t, none, rfl, ?_⟩
            simp only [idx_inv, hbx, hidxa, hlasta]
            try dsimp only
            simp [opt_lt, hlt]
          | none =>
            try dsimp only
            cases ham : am with
            | true =>
              rw [if_pos rfl]
              exact ⟨_, none, rfl, hfc⟩
            | false =>
              rw [if_neg (by simp)]
              exact ⟨_, none, rfl, rfl⟩
      · rw [if_neg hs]
        obtain ⟨t, hok, hinvt⟩ := box_select_disable_impl_inv s a hA hidx
        try dsimp only
        rw [hok]
        exact ⟨t, none, rfl, hinvt⟩
  have part4 : ∃ t, box_select_disable s = Except.ok t ∧ idx_inv t = true := by
    unfold box_select_disable
    cases hA : s.active_box with
    | none => exact ⟨s, rfl, hidx⟩
    | some a =>
      try dsimp only
      by_cases hd : a.is_dynamic = true
      · rw [if_pos hd]
        exact box_select_disable_impl_inv s a hA hidx
      · rw [if_neg hd]
        exact ⟨s, rfl, hidx⟩
  have part5 : ∃ t, deselect_active s = Except.ok t ∧ idx_inv t = true := by
    unfold deselect_active
    cases hi : s.active_box_index with
    | some i =>
      have hlt : i < s.boxes.length := by
        have hcopy := hpair.1
        rw [hi] at hcopy
        simpa [opt_lt] using hcopy
      obtain ⟨b, hb⟩ : ∃ b, s.boxes[i]? = some b := ⟨_, List.getElem?_eq_getElem hlt⟩
      try dsimp only
      rw [hb]
      try dsimp only
      cases hemp : (s.boxes.eraseIdx i).isEmpty with
      | true =>
        rw [if_pos rfl]
        exact ⟨_, rfl, rfl⟩
      | false =>
        rw [if_neg (by simp)]
        have hne : s.boxes.eraseIdx i ≠ [] := by
          intro hh
          rw [hh] at hemp
          exact absurd hemp (by simp)
        have hpos : 0 < (s.boxes.eraseIdx i).length := List.length_pos.mpr hne
        have hlt2 : (if 1 ≤ i then i - 1 else i) < (s.boxes.eraseIdx i).length := by
          have hlen : (s.boxes.eraseIdx i).length = s.boxes.length - 1 := by
            rw [List.length_eraseIdx, if_pos hlt]
          split <;> omega
        have hopt : opt_lt (some (if 1 ≤ i then i - 1 else i))
            (s.boxes.eraseIdx i).length = true := by
          simp only [opt_lt, decide_eq_true_eq]
          exact hlt2
        obtain ⟨t, hok, hbx, hidxa, hlasta⟩ :=
          create_active_box_ok
            { s with boxes := s.boxes.eraseIdx i
                     active_box_index := some (if 1 ≤ i then i - 1 else i) } hopt
        refine ⟨t, hok, ?_⟩
        simp only [idx_inv, hbx, hidxa, hlasta]
        try dsimp only
        simp only [opt_lt, decide_eq_true_eq]
        rw [Bool.and_eq_true]
        exact ⟨decide_eq_true hlt2, decide_eq_true hlt2⟩
    | none =>
      cases hA : s.active_box with
      | some a =>
        try dsimp only
        by_cases hc : (a.is_dynamic && s.last_active_box_index.isSome) = true
        · rw [if_pos hc]
          refine ⟨_, rfl, ?_⟩
          rw [idx_inv]
          try dsimp only
          rw [hpair.2]
          rfl
        · rw [if_neg hc]
          exact ⟨s, rfl, hidx⟩
      | none => exact ⟨s, rfl, hidx⟩
  exact ⟨part1, part2, part3, part4, part5, rfl⟩

/-- C2 (witness): instantiation at `run_state_2`, whose indices satisfy the
invariant and whose hover index is none. -/
theorem C2_invariant_amended_witness :
    idx_inv (deselect_all run_state_2) = true :=
  (C2_invariant_amended run_state_2 true false (0, 0, 0) none rfl rfl).2.2.2.2.2

/-- C2 (counterexample): a run in which every hover index supplied to
`update_cursor_position` is below the sequence length at the moment it is
supplied (here `some 1` while two boxes are committed) still reaches a state
(`run_state_6`, satisfying the index invariant) where `box_select_toggle`
raises `IndexError`; the object state at the raise has `active_box_index =
some 1` over a one-element sequence, violating the invariant the claim says
every operation preserves. -/
theorem C2_invariant_counterexample :
    box_select_toggle initial_state false = Except.ok (run_state_1, none) ∧
    box_select_toggle run_state_1 false = Except.ok (run_state_2, none) ∧
    box_select_toggle run_state_2 true = Except.ok (run_state_3, none) ∧
    box_select_toggle run_state_3 false = Except.ok (run_state_4, none) ∧
    run_state_4.boxes.length = 2 ∧
    update_cursor_position run_state_4 (0, 0, 0) (some 1) = run_state_5 ∧
    deselect_active run_state_5 = Except.ok run_state_6 ∧
    idx_inv run_state_6 = true ∧
    box_select_toggle run_state_6 false = Except.error run_error_state ∧
    idx_inv run_error_state = false :=
  ⟨rfl, rfl, rfl, rfl, rfl, rfl, rfl, rfl, rfl, rfl⟩

/-- C9 (code bug): `run_state_6` satisfies the stated index invariants, yet
`box_select_toggle` raises (`IndexError` reading the committed box at the
stale hover index 1 of a one-element sequence) instead of being total. -/
theorem C9_toggle_raises :
    idx_inv run_state_6 = true ∧
    box_select_toggle run_state_6 false = Except.error run_error_state :=
  ⟨rfl, rfl⟩
